import Mathlib

/-!
Verification model of the SixPack airspeed-indicator firmware
(`src/unnamed/part_001`): the calibration engine (`value_to_angle`), the
motion planner (`motor_move_to`), the timer-driven step sequencer
(`motor_timer_callback`, modelled as `tick`), and the UDP command
dispatcher (`udp_receiver_task`, modelled as `parseCommand`/`udp_handle`).

Machine integers are modelled as `Int`/`Nat`; the values handled here stay
far below any overflow boundary.  The two floating-point expressions of
the firmware are modelled by exact integer arithmetic, with the exactness
argument given at each definition.
-/

namespace SixPack

/-- Calibration table of the airspeed firmware: pairs (value in knots,
angle in degrees), from the `calibration` array in the source. -/
def calibration : List (Int × Int) :=
  [(40, 32), (50, 52), (60, 72), (70, 94), (80, 116),
   (90, 138), (100, 161), (110, 182), (120, 203), (200, 315)]

/-- One interpolation step of `value_to_angle`:
`ratio = (float)(value - v1) / (v2 - v1); (int)(a1 + ratio * (a2 - a1))`.
The C cast truncates toward zero; for every segment of the table above the
exact result is at least `a1 >= 32 > 0`, so truncation is the floor, and
`floor (a1 + (value - v1) * (a2 - a1) / (v2 - v1))` equals
`a1 + (value - v1) * (a2 - a1) / (v2 - v1)` in integer division (the
divisor is positive).  The float computation agrees with the exact value:
for each table segment the exact interpolant is a multiple of `1/10` or a
multiple of `1/16`, so at least `1/10` away from the next lower or higher
integer except when it is exactly an integer, while the accumulated
single-precision rounding error is below `10^-4`; when the exact value is
an integer either the ratio is a dyadic rational (segments with
`v2 - v1 = 80`) or the product `ratio * (a2 - a1)` re-rounds to the exact
integer (segments with `v2 - v1 = 10`), so the truncation is unaffected. -/
def interpSeg (v1 a1 v2 a2 value : Int) : Int :=
  a1 + (value - v1) * (a2 - a1) / (v2 - v1)

/-- The bracket-search loop of `value_to_angle`: the first consecutive pair
`(i, i+1)` with `value >= v_i` and `value <= v_(i+1)` is interpolated. -/
def interpLoop : List (Int × Int) → Int → Option Int
  | (v1, a1) :: (v2, a2) :: rest, value =>
    if v1 ≤ value ∧ value ≤ v2 then some (interpSeg v1 a1 v2 a2 value)
    else interpLoop ((v2, a2) :: rest) value
  | _, _ => none

/-- `value_to_angle` from the airspeed firmware: clamp below the first and
above the last breakpoint, otherwise interpolate on the bracketing pair;
the fallback after the loop returns the first breakpoint angle, as in the
source. -/
def value_to_angle (value : Int) : Int :=
  if value ≤ (calibration.headD (0, 0)).1 then (calibration.headD (0, 0)).2
  else if (calibration.getLastD (0, 0)).1 ≤ value then (calibration.getLastD (0, 0)).2
  else (interpLoop calibration value).getD (calibration.headD (0, 0)).2

/-- The exact rational interpolant
`a1 + (value - v1) / (v2 - v1) * (a2 - a1)` of the specification text. -/
def interpSegQ (v1 a1 v2 a2 value : Int) : ℚ :=
  (a1 : ℚ) + ((value : ℚ) - (v1 : ℚ)) / ((v2 : ℚ) - (v1 : ℚ)) * ((a2 : ℚ) - (a1 : ℚ))

/-- Bracket-search loop returning the ROUNDED interpolant.  This follows
the words of the specification (round to the nearest integer degree); it
is compared against `value_to_angle`, which truncates. -/
def interpLoopRound : List (Int × Int) → Int → Option Int
  | (v1, a1) :: (v2, a2) :: rest, value =>
    if v1 ≤ value ∧ value ≤ v2 then some (round (interpSegQ v1 a1 v2 a2 value))
    else interpLoopRound ((v2, a2) :: rest) value
  | _, _ => none

/-- Calibration lookup following the words of the specification, with
rounding to the nearest degree.  Used to compare against the truncating
`value_to_angle` of the firmware. -/
def value_to_angle_specRound (value : Int) : Int :=
  if value ≤ 40 then 32
  else if 200 ≤ value then 315
  else (interpLoopRound calibration value).getD 32

/-- Bracket-search loop returning the FLOOR of the exact rational
interpolant. -/
def interpLoopFloor : List (Int × Int) → Int → Option Int
  | (v1, a1) :: (v2, a2) :: rest, value =>
    if v1 ≤ value ∧ value ≤ v2 then some (Int.floor (interpSegQ v1 a1 v2 a2 value))
    else interpLoopFloor ((v2, a2) :: rest) value
  | _, _ => none

/-- Calibration lookup as the floor of the exact rational interpolant over
the bracketing pair: the amended form of the specification formula. -/
def value_to_angle_specFloor (value : Int) : Int :=
  if value ≤ (calibration.headD (0, 0)).1 then (calibration.headD (0, 0)).2
  else if (calibration.getLastD (0, 0)).1 ≤ value then (calibration.getLastD (0, 0)).2
  else (interpLoopFloor calibration value).getD (calibration.headD (0, 0)).2

/-- The `motor_state_t` record of the firmware: target angle in degrees,
remaining step count, direction (+1 or -1), and the active flag. -/
structure MotorState where
  target_angle : Int
  steps_remaining : Int
  direction : Int
  active : Bool
deriving DecidableEq

/-- The device-global mutable state of the firmware.  `current_position`
is a `float` in C but is only ever assigned integer values (0 at start, 0
on ZERO, and the integer `target_angle` on move completion), so it is
modelled as `Int`.  `timer_running` models whether the gptimer is started.
`phys_steps` is a ghost field that does not exist in the firmware: it
accumulates the net number of step pulses actually sent to the coils
(direction-signed), i.e. the physical needle displacement, which the
airspeed firmware itself does not track. -/
structure DeviceState where
  current_position : Int
  seq_idx : Nat
  motor : MotorState
  timer_running : Bool
  phys_steps : Int
deriving DecidableEq

/-- Zero-initialised state, as at device start. -/
def initState : DeviceState :=
  { current_position := 0, seq_idx := 0,
    motor := { target_angle := 0, steps_remaining := 0, direction := 0, active := false },
    timer_running := false, phys_steps := 0 }

/-- The full-step coil activation table `SEQUENCE_FULL`. -/
def SEQUENCE_FULL : List (List Nat) :=
  [[1, 1, 0, 0], [0, 1, 1, 0], [0, 0, 1, 1], [1, 0, 0, 1]]

/-- One invocation of `motor_timer_callback`.  Returns the successor state
and the coil pattern pulsed during this tick (`none` when the guard fires
and no step is performed).  The C sequence-index update
`(seq_idx - 1 + 4) % 4` on a nonnegative int equals `(seq_idx + 3) % 4` on
`Nat`.  On completion the firmware sets `current_position` to the planned
target angle and returns false, disarming the timer. -/
def tick (s : DeviceState) : DeviceState × Option (List Nat) :=
  if s.motor.active = false ∨ s.motor.steps_remaining ≤ 0 then
    ({ s with timer_running := false }, none)
  else
    let pulse := SEQUENCE_FULL.getD s.seq_idx []
    let seq2 := if 0 < s.motor.direction then (s.seq_idx + 1) % 4 else (s.seq_idx + 3) % 4
    let rem := s.motor.steps_remaining - 1
    let phys2 := s.phys_steps + s.motor.direction
    if rem ≤ 0 then
      ({ s with seq_idx := seq2, phys_steps := phys2,
                current_position := s.motor.target_angle,
                motor := { s.motor with steps_remaining := rem, active := false },
                timer_running := false }, some pulse)
    else
      ({ s with seq_idx := seq2, phys_steps := phys2,
                motor := { s.motor with steps_remaining := rem } }, some pulse)

/-- `run n s`: `n` timer periods; returns the final state and the list of
coil patterns pulsed. -/
def run : Nat → DeviceState → DeviceState × List (List Nat)
  | 0, s => (s, [])
  | n + 1, s =>
    let t := tick s
    let r := run n t.1
    (r.1, t.2.toList ++ r.2)

/-- The sequential clamping at the head of `motor_move_to`:
`if (target < min) target = min; if (target > max) target = max;`. -/
def clampSeq (t mn mx : Int) : Int :=
  let t1 := if t < mn then mn else t
  if mx < t1 then mx else t1

/-- Step count of a planned move:
`(int)(abs(diff) / (360.0 / 2048))`.  The literal `360.0 / 2048` is the
dyadic rational `45/256`, exact in double precision; the quotient
`|diff| * 256 / 45` is either an exact integer (then the double division
is exact) or at least `1/45` away from every integer (far beyond the
double rounding error), so the C truncation equals the integer floor
division `|diff| * 2048 / 360`. -/
def stepsFor (diff : Int) : Int := ((diff.natAbs * 2048) / 360 : Nat)

/-- The signed delta computed by `motor_move_to`: clamped target minus the
stored current position (the C code casts the float to int; the stored
value is always an integer). -/
def plannedDiff (t mn mx : Int) (s : DeviceState) : Int :=
  clampSeq t mn mx - s.current_position

/-- `motor_move_to(target, min, max)`: clamp, diff against the stored
position, return unchanged when the diff is zero, otherwise stop any
in-progress move and install the new plan, then restart the timer.  In
this sequential model stop-then-install collapses to overwriting the
motor record. -/
def motor_move_to (t mn mx : Int) (s : DeviceState) : DeviceState :=
  let diff := plannedDiff t mn mx s
  if diff = 0 then s
  else
    { s with
      motor := { target_angle := clampSeq t mn mx,
                 steps_remaining := stepsFor diff,
                 direction := if 0 ≤ diff then 1 else -1,
                 active := true },
      timer_running := true }

/-- C `isspace`: the space character and the codes 9 to 13. -/
def isWs (c : Char) : Bool := c == ' ' || (9 ≤ c.toNat && c.toNat ≤ 13)

/-- Leading-whitespace skipping performed by the `%d` conversion of
`sscanf`. -/
def skipWs : List Char → List Char
  | c :: cs => if isWs c then skipWs cs else c :: cs
  | [] => []

/-- Consume a maximal run of decimal digits, accumulating their value. -/
def takeDigits : List Char → Nat → Nat × List Char
  | c :: cs, acc =>
    if c.isDigit then takeDigits cs (acc * 10 + (c.toNat - 48)) else (acc, c :: cs)
  | [], acc => (acc, [])

/-- One `%d` conversion of `sscanf`: skip whitespace, optional sign, then
at least one digit; fails (conversion stops) when no digit follows. -/
def parseIntFrom (cs : List Char) : Option (Int × List Char) :=
  match skipWs cs with
  | '-' :: c :: rest =>
    if c.isDigit then
      let p := takeDigits (c :: rest) 0
      some (-(p.1 : Int), p.2)
    else none
  | '+' :: c :: rest =>
    if c.isDigit then
      let p := takeDigits (c :: rest) 0
      some ((p.1 : Int), p.2)
    else none
  | c :: rest =>
    if c.isDigit then
      let p := takeDigits (c :: rest) 0
      some ((p.1 : Int), p.2)
    else none
  | [] => none

/-- A literal `:` in a `sscanf` format: must match the next input
character exactly. -/
def expectColon : List Char → Option (List Char)
  | ':' :: cs => some cs
  | _ => none

/-- `sscanf(s, "%d", &x) == 1`. -/
def scan1 (cs : List Char) : Option Int :=
  match parseIntFrom cs with
  | some p => some p.1
  | none => none

/-- `sscanf(s, "%d:%d", &a, &b) == 2`. -/
def scan2 (cs : List Char) : Option (Int × Int) :=
  match parseIntFrom cs with
  | some p =>
    match expectColon p.2 with
    | some r2 =>
      match parseIntFrom r2 with
      | some q => some (p.1, q.1)
      | none => none
    | none => none
  | none => none

/-- `sscanf(s, "%d:%d:%d:%d", ...)` with the MOVE handler defaults
`motor = 0, angle = 0, min = 0, max = 360`: conversion stops at the first
failure and every later field keeps its default; the return value is
ignored by the firmware. -/
def scan4 (cs : List Char) : Int × Int × Int × Int :=
  match parseIntFrom cs with
  | none => (0, 0, 0, 360)
  | some p =>
    match expectColon p.2 with
    | none => (p.1, 0, 0, 360)
    | some r2 =>
      match parseIntFrom r2 with
      | none => (p.1, 0, 0, 360)
      | some q =>
        match expectColon q.2 with
        | none => (p.1, q.1, 0, 360)
        | some r4 =>
          match parseIntFrom r4 with
          | none => (p.1, q.1, 0, 360)
          | some u =>
            match expectColon u.2 with
            | none => (p.1, q.1, u.1, 360)
            | some r6 =>
              match parseIntFrom r6 with
              | none => (p.1, q.1, u.1, 360)
              | some w => (p.1, q.1, u.1, w.1)

/-- `strncmp(rx, tag, n) == 0`: the datagram starts with the given tag. -/
def hasPref : List Char → List Char → Bool
  | [], _ => true
  | _ :: _, [] => false
  | p :: ps, c :: cs => p == c && hasPref ps cs

/-- The transient command value produced by parsing one datagram. -/
inductive Command where
  | value (motorId v : Int)
  | angle (motorId a : Int)
  | move (motorId a mn mx : Int)
  | zero
deriving DecidableEq

/-- Command tag VALUE:. -/
def valuePref : List Char := ['V', 'A', 'L', 'U', 'E', ':']

/-- Command tag ANGLE:. -/
def anglePref : List Char := ['A', 'N', 'G', 'L', 'E', ':']

/-- Command tag MOVE:. -/
def movePref : List Char := ['M', 'O', 'V', 'E', ':']

/-- Command tag ZERO:. -/
def zeroPref : List Char := ['Z', 'E', 'R', 'O', ':']

/-- Datagram parsing of `udp_receiver_task`: tag dispatch in source order;
VALUE and ANGLE try the two-field form then the one-field form (motor id
defaulting to 0) and are dropped when both fail; MOVE never fails, its
unparsed fields keep the defaults; the ZERO branch parses nothing after
the tag. -/
def parseCommand (rx : List Char) : Option Command :=
  if hasPref valuePref rx then
    match scan2 (rx.drop 6) with
    | some p => some (Command.value p.1 p.2)
    | none =>
      match scan1 (rx.drop 6) with
      | some v => some (Command.value 0 v)
      | none => none
  else if hasPref anglePref rx then
    match scan2 (rx.drop 6) with
    | some p => some (Command.angle p.1 p.2)
    | none =>
      match scan1 (rx.drop 6) with
      | some a => some (Command.angle 0 a)
      | none => none
  else if hasPref movePref rx then
    match scan4 (rx.drop 5) with
    | (m, a, mn, mx) => some (Command.move m a mn mx)
  else if hasPref zeroPref rx then some Command.zero
  else none

/-- Action of one parsed command, as in the body of `udp_receiver_task`:
VALUE converts through the calibration table and moves within [0, 360];
ANGLE moves directly within [0, 360]; MOVE uses the parsed bounds; ZERO
resets the stored position and the phase index and nothing else.  The
parsed motor id is bound but never passed on: the airspeed firmware has a
single motor and `motor_move_to` takes no motor-id argument. -/
def handleCommand : Command → DeviceState → DeviceState
  | Command.value _ v, s => motor_move_to (value_to_angle v) 0 360 s
  | Command.angle _ a, s => motor_move_to a 0 360 s
  | Command.move _ a mn mx, s => motor_move_to a mn mx s
  | Command.zero, s => { s with current_position := 0, seq_idx := 0 }

/-- Handling of one received datagram: parse, then act; datagrams that
parse to no command leave the state untouched. -/
def udp_handle (rx : List Char) (s : DeviceState) : DeviceState :=
  match parseCommand rx with
  | some c => handleCommand c s
  | none => s

/-- The state reached from start by the command ANGLE:10 followed by all
56 planned timer ticks: the needle and the stored position are at 10
degrees, no move is active. -/
def s10 : DeviceState :=
  (run 56 (udp_handle ['A', 'N', 'G', 'L', 'E', ':', '1', '0'] initState)).1

/-- The state reached from start by the command ANGLE:10 followed by only
5 of the 56 planned timer ticks: a move is still in progress (51 steps
remaining), 5 step pulses have been emitted, and the stored position still
reads 0. -/
def sMid : DeviceState :=
  (run 5 (udp_handle ['A', 'N', 'G', 'L', 'E', ':', '1', '0'] initState)).1

/-- The state reached from start by the command ANGLE:2 followed by all 11
planned timer ticks: the stored position is 2 degrees, no move is
active. -/
def sPos2 : DeviceState :=
  (run 11 (udp_handle ['A', 'N', 'G', 'L', 'E', ':', '2'] initState)).1

/-- A state with an in-flight 3-step move, for the C9 witness. -/
def s9w : DeviceState :=
  { current_position := 0, seq_idx := 0,
    motor := { target_angle := 45, steps_remaining := 3, direction := 1, active := true },
    timer_running := true, phys_steps := 0 }

/-- The ROUNDED step count of the specification formula:
`round(|delta| * 2048 / 360)`. -/
def steps_specRound (diff : Int) : ℤ := round (((diff.natAbs : ℕ) : ℚ) * 2048 / 360)

set_option maxRecDepth 8000

/-- On adjacent breakpoints with strictly increasing values, the floor of
the exact rational interpolant is the integer-division interpolant used by
the firmware model. -/
theorem floor_interpSegQ (v1 a1 v2 a2 value : Int) (h : v1 < v2) :
    Int.floor (interpSegQ v1 a1 v2 a2 value) = interpSeg v1 a1 v2 a2 value := by
  unfold interpSegQ interpSeg
  have hd : (0 : Int) < v2 - v1 := by omega
  have hnum : ((value : ℚ) - (v1 : ℚ)) / ((v2 : ℚ) - (v1 : ℚ)) * ((a2 : ℚ) - (a1 : ℚ))
      = (((value - v1) * (a2 - a1) : Int) : ℚ) / (((v2 - v1).toNat : ℕ) : ℚ) := by
    rw [div_mul_eq_mul_div]
    have h1 : (((v2 - v1).toNat : ℕ) : ℚ) = ((v2 : ℚ) - (v1 : ℚ)) := by
      rw [show ((v2 - v1).toNat : ℚ) = (((v2 - v1).toNat : ℤ) : ℚ) by push_cast; ring]
      rw [Int.toNat_of_nonneg hd.le]; push_cast; ring
    rw [h1]; push_cast; ring_nf
  rw [hnum, Int.floor_int_add, Rat.floor_intCast_div_natCast, Int.toNat_of_nonneg hd.le]

/-- On a table whose breakpoint values are strictly increasing between
neighbours, the floor-of-rational loop and the integer loop agree. -/
theorem interpLoopFloor_eq (value : Int) :
    ∀ tbl : List (Int × Int), tbl.Chain' (fun p q => p.1 < q.1) →
      interpLoopFloor tbl value = interpLoop tbl value := by
  intro tbl
  induction tbl with
  | nil => intro _; rfl
  | cons p tl ih =>
    intro hch
    match tl with
    | [] => rfl
    | q :: rest =>
      have hpq : p.1 < q.1 := (List.chain'_cons.mp hch).1
      have htl : (q :: rest).Chain' (fun p q => p.1 < q.1) := (List.chain'_cons.mp hch).2
      show interpLoopFloor ((p.1, p.2) :: (q.1, q.2) :: rest) value
          = interpLoop ((p.1, p.2) :: (q.1, q.2) :: rest) value
      unfold interpLoopFloor interpLoop
      by_cases hc : p.1 ≤ value ∧ value ≤ q.1
      · rw [if_pos hc, if_pos hc, floor_interpSegQ _ _ _ _ _ hpq]
      · rw [if_neg hc, if_neg hc]
        exact ih htl

/-- An active move with `n > 0` remaining steps emits exactly `n` step
pulses over the next `n` timer ticks and then goes idle. -/
theorem run_drain : ∀ (n : Nat) (s : DeviceState), s.motor.active = true →
    s.motor.steps_remaining = (n : Int) → 0 < n →
    (run n s).2.length = n ∧ (run n s).1.motor.active = false := by
  intro n
  induction n with
  | zero => intro s _ _ hn; exact absurd hn (by omega)
  | succ m ih =>
    intro s ha hr _
    have hguard : ¬ (s.motor.active = false ∨ s.motor.steps_remaining ≤ 0) := by
      intro hor
      rcases hor with h | h
      · rw [ha] at h; exact Bool.noConfusion h
      · rw [hr] at h; omega
    show ((run (m + 1) s).2.length = m + 1 ∧ (run (m + 1) s).1.motor.active = false)
    simp only [run, tick]
    rw [if_neg hguard]
    by_cases hrem : s.motor.steps_remaining - 1 ≤ 0
    · have hm : m = 0 := by rw [hr] at hrem; omega
      subst hm
      rw [if_pos hrem]
      simp [run]
    · rw [if_neg hrem]
      have hm : 0 < m := by rw [hr] at hrem; omega
      have hr2 : s.motor.steps_remaining - 1 = (m : Int) := by rw [hr]; push_cast; ring
      have := ih { s with
          seq_idx := if 0 < s.motor.direction then (s.seq_idx + 1) % 4 else (s.seq_idx + 3) % 4,
          phys_steps := s.phys_steps + s.motor.direction,
          motor := { s.motor with steps_remaining := s.motor.steps_remaining - 1 } }
        ha hr2 hm
      simp only [Option.toList_some, List.length_append, List.length_cons, List.length_nil]
      exact ⟨by rw [this.1]; omega, this.2⟩

/-- Claim C5: `value_to_angle` is exact at and beyond the table bounds:
every value at or below the first breakpoint value 40 returns the first
angle 32; every value at or above the last breakpoint value 200 returns
the last angle 315 (out-of-range inputs are clamped, never an error); and
every value equal to a breakpoint value returns that breakpoint angle
exactly. -/
theorem c5_clamp_and_breakpoints_exact :
    (∀ v : ℤ, v ≤ 40 → value_to_angle v = 32) ∧
    (∀ v : ℤ, 200 ≤ v → value_to_angle v = 315) ∧
    (∀ p ∈ calibration, value_to_angle p.1 = p.2) := by
  refine ⟨?_, ?_, by decide⟩
  · intro v h
    simp only [value_to_angle, calibration, List.headD, List.getLastD]
    rw [if_pos h]
  · intro v h
    have h40 : ¬ v ≤ 40 := by omega
    simp only [value_to_angle, calibration, List.headD, List.getLastD]
    rw [if_neg h40]
    norm_num
    omega

/-- Witness for C5 at concrete inputs: a value below the table, a value
above the table, and a value on an interior breakpoint. -/
theorem c5_clamp_and_breakpoints_exact_witness :
    value_to_angle 0 = 32 ∧ value_to_angle 1000 = 315 ∧ value_to_angle 100 = 161 :=
  ⟨c5_clamp_and_breakpoints_exact.1 0 (by decide),
   c5_clamp_and_breakpoints_exact.2.1 1000 (by decide),
   c5_clamp_and_breakpoints_exact.2.2 (100, 161) (by decide)⟩

/-- Claim C8: when the clamped target equals the stored current angle the
planner is a no-op: the whole device state, in particular every motor
plan field, the position and the phase index, is returned unchanged. -/
theorem c8_zero_delta_noop (s : DeviceState) (t mn mx : Int)
    (h : plannedDiff t mn mx s = 0) :
    motor_move_to t mn mx s = s := by
  unfold motor_move_to
  rw [if_pos h]

/-- Witness for C8 at a concrete input: target 0 from the initial state. -/
theorem c8_zero_delta_noop_witness :
    plannedDiff 0 0 360 initState = 0 ∧ motor_move_to 0 0 360 initState = initState :=
  ⟨by decide, c8_zero_delta_noop initState 0 0 360 (by decide)⟩

/-- Claim C10: the motor id of a parsed VALUE, ANGLE or MOVE command is
ignored by the motion path: commands that differ only in the motor id
(including out-of-range ids) act identically on the single device state;
this also holds end to end through datagram parsing, shown for VALUE
datagrams naming motor 7 and motor 99. -/
theorem c10_motor_id_ignored (m1 m2 v a mn mx : Int) (s : DeviceState) :
    handleCommand (Command.value m1 v) s = handleCommand (Command.value m2 v) s ∧
    handleCommand (Command.angle m1 a) s = handleCommand (Command.angle m2 a) s ∧
    handleCommand (Command.move m1 a mn mx) s = handleCommand (Command.move m2 a mn mx) s ∧
    udp_handle ['V', 'A', 'L', 'U', 'E', ':', '7', ':', '9', '5'] s
      = udp_handle ['V', 'A', 'L', 'U', 'E', ':', '9', '9', ':', '9', '5'] s := by
  refine ⟨rfl, rfl, rfl, ?_⟩
  have h1 : parseCommand ['V', 'A', 'L', 'U', 'E', ':', '7', ':', '9', '5']
      = some (Command.value 7 95) := by decide
  have h2 : parseCommand ['V', 'A', 'L', 'U', 'E', ':', '9', '9', ':', '9', '5']
      = some (Command.value 99 95) := by decide
  rw [udp_handle, udp_handle, h1, h2]
  rfl

/-- A datagram starting with the ZERO: tag resets the stored position and
the phase index and changes nothing else, whatever follows the tag. -/
theorem zero_handle_eq (sfx : List Char) (s : DeviceState) :
    udp_handle (zeroPref ++ sfx) s = { s with current_position := 0, seq_idx := 0 } := by
  have hv : hasPref valuePref (zeroPref ++ sfx) = false := rfl
  have ha : hasPref anglePref (zeroPref ++ sfx) = false := rfl
  have hm : hasPref movePref (zeroPref ++ sfx) = false := rfl
  have hz : hasPref zeroPref (zeroPref ++ sfx) = true := rfl
  simp [udp_handle, parseCommand, hv, ha, hm, hz, handleCommand]

/-- Claim C6: a ZERO command directly resets the stored position to 0 and
the phase index to 0 and produces no motion: the motor plan fields and the
timer are untouched (no plan is computed), and when the motor is idle the
following timer tick emits no step pulse. -/
theorem c6_zero_resets_without_motion (sfx : List Char) (s : DeviceState) :
    udp_handle (zeroPref ++ sfx) s = { s with current_position := 0, seq_idx := 0 } ∧
    (s.motor.active = false → (tick (udp_handle (zeroPref ++ sfx) s)).2 = none) := by
  refine ⟨zero_handle_eq sfx s, fun hact => ?_⟩
  rw [zero_handle_eq sfx s]
  simp [tick, hact]

/-- Witness for C6 at a concrete input: ZERO:7 from the initial state. -/
theorem c6_zero_resets_without_motion_witness :
    udp_handle (zeroPref ++ ['7']) initState
      = { initState with current_position := 0, seq_idx := 0 } ∧
    (tick (udp_handle (zeroPref ++ ['7']) initState)).2 = none :=
  ⟨(c6_zero_resets_without_motion ['7'] initState).1,
   (c6_zero_resets_without_motion ['7'] initState).2 rfl⟩

/-- Claim C9: handling ZERO writes only the position and the phase index:
the motor plan (active flag, remaining steps, direction, target) and the
timer are unchanged, so a move in flight when ZERO arrives keeps emitting
one step pulse per tick until its remaining steps are exhausted, and only
then goes idle. -/
theorem c9_zero_keeps_inflight_move (s : DeviceState) (n : Nat)
    (ha : s.motor.active = true) (hr : s.motor.steps_remaining = (n : Int)) (hn : 0 < n) :
    (udp_handle (zeroPref ++ ['0']) s).motor = s.motor ∧
    (udp_handle (zeroPref ++ ['0']) s).timer_running = s.timer_running ∧
    (run n (udp_handle (zeroPref ++ ['0']) s)).2.length = n ∧
    (run n (udp_handle (zeroPref ++ ['0']) s)).1.motor.active = false := by
  rw [zero_handle_eq]
  have h := run_drain n { s with current_position := 0, seq_idx := 0 } ha hr hn
  exact ⟨rfl, rfl, h.1, h.2⟩

/-- Witness for C9 at a concrete input: an in-flight 3-step move survives
ZERO:0 and emits exactly 3 further pulses before going idle. -/
theorem c9_zero_keeps_inflight_move_witness :
    (run 3 (udp_handle (zeroPref ++ ['0']) s9w)).2.length = 3 ∧
    (run 3 (udp_handle (zeroPref ++ ['0']) s9w)).1.motor.active = false := by
  have h := c9_zero_keeps_inflight_move s9w 3 rfl rfl (by decide)
  exact ⟨h.2.2.1, h.2.2.2⟩

/-- Counterexample to claim C3 as stated: at input 95 (strictly inside the
table, bracketed by (90, 138) and (100, 161)) the firmware returns 149,
while the claimed round-to-nearest formula gives
round(138 + (95-90)/(100-90) * (161-138)) = round(149.5) = 150: the code
truncates instead of rounding. -/
theorem c3_counterexample :
    value_to_angle 95 = 149 ∧ value_to_angle_specRound 95 = 150 := by
  constructor
  · decide
  · norm_num [value_to_angle_specRound, interpLoopRound, calibration, interpSegQ, round_eq]

/-- Claim C3 (amended): for every input strictly between the first and the
last breakpoint values, `value_to_angle` returns the linear interpolation
over the bracketing consecutive pair truncated (floored) to an integer
degree, not rounded to the nearest degree. -/
theorem c3_interpolation_truncates (v : ℤ) (h1 : 40 < v) (h2 : v < 200) :
    value_to_angle v = value_to_angle_specFloor v := by
  unfold value_to_angle value_to_angle_specFloor
  rw [interpLoopFloor_eq v calibration
    (by norm_num [calibration, List.chain'_cons, List.chain'_singleton])]

/-- Witness for C3 (amended) at the concrete input 95. -/
theorem c3_interpolation_truncates_witness :
    (40 : ℤ) < 95 ∧ (95 : ℤ) < 200 ∧ value_to_angle 95 = value_to_angle_specFloor 95 :=
  ⟨by decide, by decide, c3_interpolation_truncates 95 (by decide) (by decide)⟩

/-- The step count of the firmware is the floor of
`|delta| * 2048 / 360`. -/
theorem stepsFor_eq_floor (d : Int) :
    stepsFor d = Int.floor (((d.natAbs : ℕ) : ℚ) * 2048 / 360) := by
  unfold stepsFor
  have key : ∀ n : ℕ, ((n * 2048 / 360 : ℕ) : ℤ) = Int.floor ((n : ℚ) * 2048 / 360) := by
    intro n
    rw [show (n : ℚ) * 2048 / 360 = (((n * 2048 : ℕ) : ℤ) : ℚ) / ((360 : ℕ) : ℚ) by
      push_cast; ring]
    rw [Rat.floor_intCast_div_natCast]
    exact Int.natCast_div (n * 2048) 360
  exact key d.natAbs

/-- Counterexample to claim C4 as stated: a move of 10 degrees from the
initial state (command ANGLE:10) installs 56 steps, but the claimed
formula round(|10| * 2048 / 360) = round(56.89) gives 57: the code
truncates instead of rounding. -/
theorem c4_counterexample :
    (udp_handle ['A', 'N', 'G', 'L', 'E', ':', '1', '0'] initState).motor.steps_remaining = 56 ∧
    steps_specRound 10 = 57 := by
  constructor
  · decide
  · norm_num [steps_specRound, round_eq]

/-- Claim C4 (amended): for every planned move with nonzero delta (clamped
target minus stored current angle, unwrapped), the installed step count is
floor(|delta| * 2048 / 360) — truncation, not rounding — and the direction
is the sign of the delta: +1 when the delta is positive, -1 when it is
negative. -/
theorem c4_steps_floor_and_sign (s : DeviceState) (t mn mx : Int)
    (h : plannedDiff t mn mx s ≠ 0) :
    (motor_move_to t mn mx s).motor.steps_remaining
      = Int.floor (((plannedDiff t mn mx s).natAbs : ℕ) * (2048 : ℚ) / 360) ∧
    (motor_move_to t mn mx s).motor.direction
      = (if 0 ≤ plannedDiff t mn mx s then 1 else -1) := by
  unfold motor_move_to
  rw [if_neg h]
  exact ⟨stepsFor_eq_floor (plannedDiff t mn mx s), rfl⟩

/-- Witness for C4 (amended) at the concrete input: delta 10 from the
initial state. -/
theorem c4_steps_floor_and_sign_witness :
    plannedDiff 10 0 360 initState ≠ 0 ∧
    (motor_move_to 10 0 360 initState).motor.steps_remaining
      = Int.floor (((plannedDiff 10 0 360 initState).natAbs : ℕ) * (2048 : ℚ) / 360) ∧
    (motor_move_to 10 0 360 initState).motor.direction = 1 :=
  ⟨by decide,
   (c4_steps_floor_and_sign initState 10 0 360 (by decide)).1,
   by decide⟩

/-- Counterexample to claim C1 as stated: with the needle at 10 degrees
(state reached by running ANGLE:10 to completion), a command targeting 350
degrees plans direction +1 (CW) with 1934 steps, i.e. the full +340 degree
traversal — not the claimed -20 degree CCW move; the planned traversal
exceeds half a revolution (1024 steps = 180 degrees). -/
theorem c1_counterexample :
    s10.current_position = 10 ∧
    (udp_handle ['A', 'N', 'G', 'L', 'E', ':', '3', '5', '0'] s10).motor.direction = 1 ∧
    (udp_handle ['A', 'N', 'G', 'L', 'E', ':', '3', '5', '0'] s10).motor.steps_remaining = 1934 ∧
    1024 < (udp_handle ['A', 'N', 'G', 'L', 'E', ':', '3', '5', '0'] s10).motor.steps_remaining := by
  decide

/-- Claim C1 (amended): the airspeed planner performs no normalization
into [0, 360) and no plus-or-minus 360 wrapping of the delta: it uses the
direct difference between the clamped target and the stored current angle.
Whenever that delta exceeds 180 degrees the planned move still goes the
long way: direction +1 and floor(delta * 2048 / 360) steps, which is more
than half a revolution (1024 steps). -/
theorem c1_no_wrap_long_traversal (s : DeviceState) (t mn mx : Int)
    (h : 180 < plannedDiff t mn mx s) :
    (motor_move_to t mn mx s).motor.direction = 1 ∧
    (motor_move_to t mn mx s).motor.steps_remaining = stepsFor (plannedDiff t mn mx s) ∧
    1024 < (motor_move_to t mn mx s).motor.steps_remaining := by
  have hne : plannedDiff t mn mx s ≠ 0 := by omega
  unfold motor_move_to
  rw [if_neg hne]
  refine ⟨by rw [if_pos (by omega : (0 : ℤ) ≤ plannedDiff t mn mx s)], rfl, ?_⟩
  show (1024 : ℤ) < stepsFor (plannedDiff t mn mx s)
  unfold stepsFor
  have h181 : 181 ≤ (plannedDiff t mn mx s).natAbs := by omega
  have hmono : 181 * 2048 / 360 ≤ (plannedDiff t mn mx s).natAbs * 2048 / 360 :=
    Nat.div_le_div_right (Nat.mul_le_mul_right 2048 h181)
  omega

/-- Witness for C1 (amended) at the concrete input: target 350 from the
needle-at-10 state, a delta of 340 degrees. -/
theorem c1_no_wrap_long_traversal_witness :
    180 < plannedDiff 350 0 360 s10 ∧
    1024 < (motor_move_to 350 0 360 s10).motor.steps_remaining :=
  ⟨by decide, (c1_no_wrap_long_traversal s10 350 0 360 (by decide)).2.2⟩

/-- Counterexample to claim C2 as stated: plan a 56-step move to 10
degrees, execute only 5 ticks (5 step pulses emitted, 51 steps remaining,
stored position still 0), then re-issue ANGLE:10.  The new plan has 56
steps — computed from the stale stored position 0, not from the position
actually reached by the 5 executed steps (a plan from the true position
would have at most 51 steps).  The old plan remaining steps (51) are
indeed discarded, but completing the new plan leaves the needle 61
physical steps (about 10.7 degrees) from origin while software believes it
is at 10 degrees (56 steps). -/
theorem c2_counterexample :
    sMid.motor.active = true ∧
    sMid.motor.steps_remaining = 51 ∧
    sMid.phys_steps = 5 ∧
    sMid.current_position = 0 ∧
    (udp_handle ['A', 'N', 'G', 'L', 'E', ':', '1', '0'] sMid).motor.steps_remaining = 56 ∧
    (run 56 (udp_handle ['A', 'N', 'G', 'L', 'E', ':', '1', '0'] sMid)).1.phys_steps = 61 ∧
    (run 56 (udp_handle ['A', 'N', 'G', 'L', 'E', ':', '1', '0'] sMid)).1.current_position = 10 ∧
    stepsFor 10 = 56 := by
  decide

/-- Claim C2 (amended): installing a new plan discards the previous plan
(its remaining steps are overwritten), and the new plan is computed only
from the stored current-position variable — which is updated solely on
move completion and on ZERO, not per executed step — so two states with
the same stored position receive identical plans regardless of any
in-flight move progress. -/
theorem c2_plan_from_stored_position (s s2 : DeviceState) (t mn mx : Int)
    (hpos : s.current_position = s2.current_position)
    (hne : plannedDiff t mn mx s ≠ 0) :
    (motor_move_to t mn mx s).motor = (motor_move_to t mn mx s2).motor := by
  have hd : plannedDiff t mn mx s2 = plannedDiff t mn mx s := by
    unfold plannedDiff
    rw [hpos]
  have hne2 : plannedDiff t mn mx s2 ≠ 0 := by rw [hd]; exact hne
  unfold motor_move_to
  rw [if_neg hne, if_neg hne2, hd]

/-- Witness for C2 (amended) at concrete inputs: the mid-move state (51
steps of an old plan in flight) and the fresh initial state, both with
stored position 0, receive the same 56-step plan for target 10. -/
theorem c2_plan_from_stored_position_witness :
    sMid.current_position = initState.current_position ∧
    plannedDiff 10 0 360 sMid ≠ 0 ∧
    (motor_move_to 10 0 360 sMid).motor = (motor_move_to 10 0 360 initState).motor :=
  ⟨by decide, by decide,
   c2_plan_from_stored_position sMid initState 10 0 360 (by decide) (by decide)⟩

/-- Counterexample to claim C7 as stated: the datagram MOVE:x has no
parseable numeric field, yet it is not dropped: from the needle-at-2 state
it installs an 11-step move toward the default target 0, mutating the
motor state. -/
theorem c7_counterexample :
    sPos2.current_position = 2 ∧
    sPos2.motor.active = false ∧
    (udp_handle ['M', 'O', 'V', 'E', ':', 'x'] sPos2).motor.active = true ∧
    (udp_handle ['M', 'O', 'V', 'E', ':', 'x'] sPos2).motor.steps_remaining = 11 ∧
    (udp_handle ['M', 'O', 'V', 'E', ':', 'x'] sPos2) ≠ sPos2 := by
  decide

/-- Claim C7 (amended): datagrams matching no known command tag are
dropped with no state mutation, and VALUE or ANGLE datagrams whose numeric
fields fail to parse (both the two-field and the one-field form) are
dropped with no state mutation; a MOVE datagram, by contrast, is always
acted on, its unparseable fields replaced by the defaults motor 0, angle
0, min 0, max 360. -/
theorem c7_drop_semantics (rx : List Char) (s : DeviceState) :
    (hasPref valuePref rx = false → hasPref anglePref rx = false →
      hasPref movePref rx = false → hasPref zeroPref rx = false → udp_handle rx s = s) ∧
    (hasPref valuePref rx = true → scan2 (rx.drop 6) = none → scan1 (rx.drop 6) = none →
      udp_handle rx s = s) ∧
    (hasPref anglePref rx = true → scan2 (rx.drop 6) = none → scan1 (rx.drop 6) = none →
      udp_handle rx s = s) := by
  refine ⟨fun h1 h2 h3 h4 => ?_, fun h1 h2 h3 => ?_, fun h1 h2 h3 => ?_⟩
  · simp [udp_handle, parseCommand, h1, h2, h3, h4]
  · simp [udp_handle, parseCommand, h1, h2, h3]
  · have hv : hasPref valuePref rx = false := by
      cases rx with
      | nil => simp [anglePref, hasPref] at h1
      | cons c cs =>
        simp only [anglePref, hasPref, Bool.and_eq_true, beq_iff_eq] at h1
        obtain ⟨hc, _⟩ := h1
        subst hc
        rfl
    simp [udp_handle, parseCommand, hv, h1, h2, h3]

/-- Witness for C7 (amended) at concrete inputs: an unknown datagram BAD,
a VALUE datagram with an unparseable field, and an ANGLE datagram with an
unparseable field, all from the initial state. -/
theorem c7_drop_semantics_witness :
    udp_handle ['B', 'A', 'D'] initState = initState ∧
    udp_handle (valuePref ++ ['x']) initState = initState ∧
    udp_handle (anglePref ++ ['?']) initState = initState :=
  ⟨(c7_drop_semantics ['B', 'A', 'D'] initState).1 (by decide) (by decide) (by decide) (by decide),
   (c7_drop_semantics (valuePref ++ ['x']) initState).2.1 (by decide) (by decide) (by decide),
   (c7_drop_semantics (anglePref ++ ['?']) initState).2.2 (by decide) (by decide) (by decide)⟩

end SixPack





